import Mathlib

/-!
Verification of the quelpoke web server (src/main.go) against its
natural-language specification.

The development shallowly embeds the program's pure core in Lean:

* the name hasher `pokemonID` (main.go lines 97-101), including a full
  executable SHA-1 (FIPS 180) over byte lists, modelling Go's
  `crypto/sha1`, and a model of `binary.BigEndian.Uint64`;
* the evolution-chain flattening loop (lines 206-213) as `flattenChain`;
* the JSON decoding of the three upstream payloads, modelling
  `encoding/json` unmarshalling into the struct types of main.go:
  absent fields and JSON `null` yield Go zero values and a value of
  the wrong shape is a decode error; the chain decode, whose error
  main.go line 204 ignores, is additionally modelled by the total
  best-effort function `bestChainResp` giving the value unmarshalling
  leaves in the fresh struct (mismatched parts stay zero, the rest
  decodes), with `bestChainResp_of_decode` showing strict and
  best-effort agree whenever the strict decode succeeds;
* the two fetch functions `fetchPokemon` and `fetchEvolutions`, with
  the network abstracted as a `World` assigning to each URL either a
  failure or a response body (Go's `http.Get` on an empty URL string
  always fails - there is no scheme - so `httpGet` hard-codes that);
* the request handler `index` (lines 52-95); the HTML template is an
  embedded asset that is not part of the sources, so template parsing
  and execution are modelled from the spec as succeeding, the rendered
  page being represented by its parameter struct `indexTemplateParams`.

Machine integers are modelled as `Nat` with explicit reduction
`% 2 ^ 32` inside SHA-1 where overflow matters; the final `% m + 1` of
the hasher cannot overflow `uint64` because `x % m + 1 <= m < 2 ^ 64`.
Go's runtime panic on `% 0` is modelled by the `Option` layer of
`pokemonID`.
-/

namespace Quelpoke

/-! ## SHA-1 over byte lists (models Go `crypto/sha1`) -/

/-- Truncation to 32 bits, the wrap-around of `uint32` arithmetic. -/
def w32 (x : Nat) : Nat := x % 4294967296

/-- Left rotation of a 32-bit word by `n` places (`bits.RotateLeft32`). -/
def rotl32 (n x : Nat) : Nat := ((x <<< n) % 4294967296) ||| (x >>> (32 - n))

/-- Big-endian byte serialisation of `x` on `k` bytes. -/
def beBytes : Nat → Nat → List Nat
  | 0, _ => []
  | k+1, x => beBytes k (x / 256) ++ [x % 256]

/-- UTF-8 encoding of one character, as Go produces for a `string`. -/
def utf8Char (c : Char) : List Nat :=
  let n := c.toNat
  if n < 128 then [n]
  else if n < 2048 then [192 ||| (n >>> 6), 128 ||| (n &&& 63)]
  else if n < 65536 then
    [224 ||| (n >>> 12), 128 ||| ((n >>> 6) &&& 63), 128 ||| (n &&& 63)]
  else
    [240 ||| (n >>> 18), 128 ||| ((n >>> 12) &&& 63), 128 ||| ((n >>> 6) &&& 63),
     128 ||| (n &&& 63)]

/-- The byte sequence of a string: Go's `[]byte(name)` is the UTF-8
encoding of the text. -/
def utf8Bytes (s : String) : List Nat := s.data.flatMap utf8Char

/-- SHA-1 message padding: a `0x80` byte, zero bytes up to 56 mod 64,
then the bit length on 8 big-endian bytes. -/
def sha1Pad (msg : List Nat) : List Nat :=
  msg ++ 128 :: List.replicate ((119 - msg.length % 64) % 64) 0 ++ beBytes 8 (8 * msg.length)

/-- Splitting into 64-byte blocks, with the list length as fuel so the
recursion is structural. -/
def chunksAux : Nat → List Nat → List (List Nat)
  | 0, _ => []
  | _, [] => []
  | fuel+1, l => l.take 64 :: chunksAux fuel (l.drop 64)

/-- Splitting a padded message into its 64-byte blocks. -/
def chunks64 (l : List Nat) : List (List Nat) := chunksAux l.length l

/-- Big-endian 32-bit words of a block. -/
def words16 : List Nat → List Nat
  | a :: b :: c :: d :: rest => (((a * 256 + b) * 256 + c) * 256 + d) :: words16 rest
  | _ => []

/-- Message-schedule extension: the list holds the words produced so
far, most recent first, and each new word is the rotation of the xor of
the words 3, 8, 14 and 16 places back. -/
def extendAux : Nat → List Nat → List Nat
  | 0, rev => rev
  | n+1, rev =>
    extendAux n
      (rotl32 1 ((rev.getD 2 0) ^^^ (rev.getD 7 0) ^^^ (rev.getD 13 0) ^^^ (rev.getD 15 0))
        :: rev)

/-- The 80-word message schedule of a block. -/
def schedule (ws : List Nat) : List Nat := (extendAux 64 ws.reverse).reverse

/-- The SHA-1 round function for round `t`. -/
def sha1F (t b c d : Nat) : Nat :=
  if t < 20 then (b &&& c) ||| ((b ^^^ 4294967295) &&& d)
  else if t < 40 then b ^^^ c ^^^ d
  else if t < 60 then (b &&& c) ||| (b &&& d) ||| (c &&& d)
  else b ^^^ c ^^^ d

/-- The SHA-1 round constant for round `t`. -/
def sha1K (t : Nat) : Nat :=
  if t < 20 then 1518500249
  else if t < 40 then 1859775393
  else if t < 60 then 2400959708
  else 3395469782

/-- The five 32-bit working registers of SHA-1. -/
structure Sha1State where
  a : Nat
  b : Nat
  c : Nat
  d : Nat
  e : Nat
deriving DecidableEq

/-- One SHA-1 round: `tw` is the round index paired with the schedule
word. -/
def sha1Round (st : Sha1State) (tw : Nat × Nat) : Sha1State :=
  ⟨w32 (rotl32 5 st.a + sha1F tw.1 st.b st.c st.d + st.e + sha1K tw.1 + tw.2),
   st.a, rotl32 30 st.b, st.c, st.d⟩

/-- Compression of one 64-byte block into the running state. -/
def processBlock (h : Sha1State) (block : List Nat) : Sha1State :=
  let st := (schedule (words16 block)).enum.foldl sha1Round h
  ⟨w32 (h.a + st.a), w32 (h.b + st.b), w32 (h.c + st.c), w32 (h.d + st.d), w32 (h.e + st.e)⟩

/-- The SHA-1 initialisation vector. -/
def sha1Init : Sha1State :=
  ⟨1732584193, 4023233417, 2562383102, 271733878, 3285377520⟩

/-- The 20-byte SHA-1 digest of a byte sequence, as returned by
`h.Sum(nil)` in main.go line 100. -/
def sha1Sum (msg : List Nat) : List Nat :=
  let h := (chunks64 (sha1Pad msg)).foldl processBlock sha1Init
  beBytes 4 h.a ++ beBytes 4 h.b ++ beBytes 4 h.c ++ beBytes 4 h.d ++ beBytes 4 h.e

/-! ## The name hasher (main.go lines 97-101) -/

/-- Model of `binary.BigEndian.Uint64`: the first eight bytes of the
slice assembled by left shifts and bitwise or, exactly as the Go
standard library computes it.  The digest it is applied to always has
20 bytes, so the out-of-range default is never used. -/
def bigEndianUint64 (b : List Nat) : Nat :=
  (b.getD 0 0) <<< 56 ||| (b.getD 1 0) <<< 48 ||| (b.getD 2 0) <<< 40 |||
  (b.getD 3 0) <<< 32 ||| (b.getD 4 0) <<< 24 ||| (b.getD 5 0) <<< 16 |||
  (b.getD 6 0) <<< 8 ||| (b.getD 7 0)

/-- The hash value of `pokemonID` for a nonzero modulus: SHA-1 the
UTF-8 bytes of the name, read the first eight digest bytes big-endian,
reduce mod `m` and add one (main.go line 100).  For `m` at least 1 this
agrees with Go's `uint64` arithmetic, since `x % m + 1 <= m < 2 ^ 64`
never overflows. -/
def pokemonIDRaw (name : String) (m : Nat) : Nat :=
  bigEndianUint64 (sha1Sum (utf8Bytes name)) % m + 1

/-- `pokemonID` with Go's division semantics made explicit: the modulo
operation panics at runtime when `m = 0`, which the embedding returns
as `none`. -/
def pokemonID (name : String) (m : Nat) : Option Nat :=
  if m = 0 then none else some (pokemonIDRaw name m)

/-- Modelled from the spec: the name hasher as section 4.1 words it -
"compute a cryptographic digest (SHA-1) of the UTF-8 bytes of `name`;
interpret the first 8 bytes of the digest as a big-endian unsigned
64-bit integer; result = (that integer mod modulus) + 1". -/
def specHasherID (name : String) (m : Nat) : Nat :=
  ((sha1Sum (utf8Bytes name)).take 8).foldl (fun acc b => acc * 256 + b) 0 % m + 1

/-! ## The template's text-casing helper (main.go lines 59-66)

Go strings are byte sequences and `s[:1]` is the one-byte slice holding
the first byte, so the helper is modelled on byte lists. -/

/-- The ASCII uppercase mapping, which is what `unicode.ToUpper` does
on a code point below 128. -/
def asciiUpper (b : Nat) : Nat := if 97 ≤ b ∧ b ≤ 122 then b - 32 else b

/-- Model of `strings.ToUpper` applied to the one-byte string holding
`b`: an ASCII byte maps through `unicode.ToUpper`; a byte of 128 or
more is not valid UTF-8 on its own, decodes as U+FFFD, and
`strings.Map` re-encodes the replacement character as the three bytes
239 191 189. -/
def upperFirstByte (b : Nat) : List Nat :=
  if b < 128 then [asciiUpper b] else [239, 191, 189]

/-- The `title` template helper (main.go lines 60-65): empty input is
returned unchanged, otherwise `strings.ToUpper(s[:1]) + s[1:]`. -/
def title : List Nat → List Nat
  | [] => []
  | b :: rest => upperFirstByte b ++ rest

/-- Modelled from the spec: "uppercases the first character of a
supplied string (no-op on empty string)", at the character level,
using Lean's ASCII `Char.toUpper`. -/
def upcaseFirstChar (s : String) : String :=
  match s.data with
  | [] => ""
  | c :: cs => String.mk (c.toUpper :: cs)

/-! ## JSON and the decoded upstream payloads (main.go lines 104-127,
174-178, 187-203) -/

/-- A JSON value.  Numbers are restricted to integers, which is all the
program's integer-typed fields can successfully decode anyway. -/
inductive Json where
  | null : Json
  | bool (b : Bool) : Json
  | num (n : Int) : Json
  | str (s : String) : Json
  | arr (elems : List Json) : Json
  | obj (fields : List (String × Json)) : Json

/-- Object field lookup; as in `encoding/json`, a repeated key is
decoded in order so the last occurrence wins. -/
def jLookup (fs : List (String × Json)) (k : String) : Option Json :=
  fs.foldl (fun acc p => if p.1 = k then some p.2 else acc) none

/-- Unmarshalling into a `string` field: `null` leaves the zero value,
a JSON string is taken, anything else is a decode error. -/
def decodeStringJ : Json → Option String
  | Json.null => some ""
  | Json.str s => some s
  | _ => none

/-- Unmarshalling into an `int` field. -/
def decodeIntJ : Json → Option Int
  | Json.null => some 0
  | Json.num n => some n
  | _ => none

/-- Strict decoding of a sequence of array elements: any element
error fails the whole sequence. -/
def decodeElems {α : Type} (d : Json → Option α) : List Json → Option (List α)
  | [] => some []
  | x :: xs =>
    match d x, decodeElems d xs with
    | some v, some vs => some (v :: vs)
    | _, _ => none

/-- Unmarshalling into a slice field: `null` gives the nil slice. -/
def decodeListJ {α : Type} (d : Json → Option α) : Json → Option (List α)
  | Json.null => some []
  | Json.arr xs => decodeElems d xs
  | _ => none

/-- A struct field that may be absent from the object: absence leaves
the zero value. -/
def optField {α : Type} (d : Json → Option α) (zero : α) : Option Json → Option α
  | none => some zero
  | some j => d j

/-- The inner `{"name": ...}` object of a type entry. -/
structure TypeName where
  name : String
deriving DecidableEq

/-- One element of `types`, tag `type`. -/
structure TypeEntry where
  type : TypeName
deriving DecidableEq

/-- The inner `{"name": ...}` object of a stat entry. -/
structure StatName where
  name : String
deriving DecidableEq

/-- One element of `stats`, tags `base_stat` and `stat`. -/
structure StatEntry where
  base_stat : Int
  stat : StatName
deriving DecidableEq

/-- The `official-artwork` object, tag `front_default`. -/
structure SpriteOfficial where
  front : String
deriving DecidableEq

/-- The `other` object, tag `official-artwork`. -/
structure SpriteOther where
  official : SpriteOfficial
deriving DecidableEq

/-- The `sprites` object, tag `other`. -/
structure Sprites where
  other : SpriteOther
deriving DecidableEq

/-- The `species` object, tag `url`. -/
structure SpeciesRef where
  url : String
deriving DecidableEq

/-- The decoded Pokemon detail payload, main.go lines 104-127. -/
structure PokeAPIResponse where
  name : String
  types : List TypeEntry
  stats : List StatEntry
  sprites : Sprites
  species : SpeciesRef
deriving DecidableEq

def decodeTypeName : Json → Option TypeName
  | Json.null => some ⟨""⟩
  | Json.obj fs => (optField decodeStringJ "" (jLookup fs "name")).map TypeName.mk
  | _ => none

def decodeTypeEntry : Json → Option TypeEntry
  | Json.null => some ⟨⟨""⟩⟩
  | Json.obj fs => (optField decodeTypeName ⟨""⟩ (jLookup fs "type")).map TypeEntry.mk
  | _ => none

def decodeStatName : Json → Option StatName
  | Json.null => some ⟨""⟩
  | Json.obj fs => (optField decodeStringJ "" (jLookup fs "name")).map StatName.mk
  | _ => none

def decodeStatEntry : Json → Option StatEntry
  | Json.null => some ⟨0, ⟨""⟩⟩
  | Json.obj fs =>
    match optField decodeIntJ 0 (jLookup fs "base_stat"),
        optField decodeStatName ⟨""⟩ (jLookup fs "stat") with
    | some b, some st => some ⟨b, st⟩
    | _, _ => none
  | _ => none

def decodeSpriteOfficial : Json → Option SpriteOfficial
  | Json.null => some ⟨""⟩
  | Json.obj fs => (optField decodeStringJ "" (jLookup fs "front_default")).map SpriteOfficial.mk
  | _ => none

def decodeSpriteOther : Json → Option SpriteOther
  | Json.null => some ⟨⟨""⟩⟩
  | Json.obj fs =>
    (optField decodeSpriteOfficial ⟨""⟩ (jLookup fs "official-artwork")).map SpriteOther.mk
  | _ => none

def decodeSprites : Json → Option Sprites
  | Json.null => some ⟨⟨⟨""⟩⟩⟩
  | Json.obj fs => (optField decodeSpriteOther ⟨⟨""⟩⟩ (jLookup fs "other")).map Sprites.mk
  | _ => none

def decodeSpeciesRef : Json → Option SpeciesRef
  | Json.null => some ⟨""⟩
  | Json.obj fs => (optField decodeStringJ "" (jLookup fs "url")).map SpeciesRef.mk
  | _ => none

/-- Unmarshalling of the Pokemon detail body into `pokeAPIResponse`,
main.go line 148. -/
def decodePokeResp : Json → Option PokeAPIResponse
  | Json.null => some ⟨"", [], [], ⟨⟨⟨""⟩⟩⟩, ⟨""⟩⟩
  | Json.obj fs =>
    match optField decodeStringJ "" (jLookup fs "name"),
        optField (decodeListJ decodeTypeEntry) [] (jLookup fs "types"),
        optField (decodeListJ decodeStatEntry) [] (jLookup fs "stats"),
        optField decodeSprites ⟨⟨⟨""⟩⟩⟩ (jLookup fs "sprites"),
        optField decodeSpeciesRef ⟨""⟩ (jLookup fs "species") with
    | some nm, some tys, some sts, some spr, some spc => some ⟨nm, tys, sts, spr, spc⟩
    | _, _, _, _, _ => none
  | _ => none

/-- The `evolution_chain` object of the species payload, tag `url`. -/
structure EvolutionChainRef where
  url : String
deriving DecidableEq

/-- The decoded species payload, main.go lines 174-178. -/
structure SpeciesResp where
  evolution_chain : EvolutionChainRef
deriving DecidableEq

/-- The inner `{"name": ...}` object of a chain node. -/
structure SpeciesName where
  name : String
deriving DecidableEq

/-- A second-stage evolution: only its species name is decoded. -/
structure ChainLevel2 where
  species : SpeciesName
deriving DecidableEq

/-- A first-stage evolution: its species name and its own
`evolves_to` list. -/
structure ChainLevel1 where
  species : SpeciesName
  evolves_to : List ChainLevel2
deriving DecidableEq

/-- The root chain node: base species and first-stage evolutions,
main.go lines 187-203. -/
structure ChainNode where
  species : SpeciesName
  evolves_to : List ChainLevel1
deriving DecidableEq

/-- The decoded evolution-chain payload, tag `chain`. -/
structure ChainResp where
  chain : ChainNode
deriving DecidableEq

def decodeEvolutionChainRef : Json → Option EvolutionChainRef
  | Json.null => some ⟨""⟩
  | Json.obj fs => (optField decodeStringJ "" (jLookup fs "url")).map EvolutionChainRef.mk
  | _ => none

def decodeSpeciesResp : Json → Option SpeciesResp
  | Json.null => some ⟨⟨""⟩⟩
  | Json.obj fs =>
    (optField decodeEvolutionChainRef ⟨""⟩ (jLookup fs "evolution_chain")).map SpeciesResp.mk
  | _ => none

def decodeSpeciesName : Json → Option SpeciesName
  | Json.null => some ⟨""⟩
  | Json.obj fs => (optField decodeStringJ "" (jLookup fs "name")).map SpeciesName.mk
  | _ => none

def decodeChainLevel2 : Json → Option ChainLevel2
  | Json.null => some ⟨⟨""⟩⟩
  | Json.obj fs => (optField decodeSpeciesName ⟨""⟩ (jLookup fs "species")).map ChainLevel2.mk
  | _ => none

def decodeChainLevel1 : Json → Option ChainLevel1
  | Json.null => some ⟨⟨""⟩, []⟩
  | Json.obj fs =>
    match optField decodeSpeciesName ⟨""⟩ (jLookup fs "species"),
        optField (decodeListJ decodeChainLevel2) [] (jLookup fs "evolves_to") with
    | some sp, some ev => some ⟨sp, ev⟩
    | _, _ => none
  | _ => none

def decodeChainNode : Json → Option ChainNode
  | Json.null => some ⟨⟨""⟩, []⟩
  | Json.obj fs =>
    match optField decodeSpeciesName ⟨""⟩ (jLookup fs "species"),
        optField (decodeListJ decodeChainLevel1) [] (jLookup fs "evolves_to") with
    | some sp, some ev => some ⟨sp, ev⟩
    | _, _ => none
  | _ => none

/-- Strict decoding of the evolution-chain payload: `none` exactly
when `Decode` at main.go line 204 would return an error the program
ignores.  What that ignored-error path leaves in the fresh struct is
the best-effort value `bestChainResp` below; `bestChainResp_of_decode`
shows the two agree whenever this strict decode succeeds. -/
def decodeChainResp : Json → Option ChainResp
  | Json.null => some ⟨⟨⟨""⟩, []⟩⟩
  | Json.obj fs => (optField decodeChainNode ⟨⟨""⟩, []⟩ (jLookup fs "chain")).map ChainResp.mk
  | _ => none

/-! ### Best-effort decoding of the ignored-error payloads

`encoding/json` documents that on a type mismatch it "skips that
field and completes the unmarshaling as best it can", returning the
earliest error.  Since main.go lines 179 and 204 discard that error,
what matters to the program is the value the best effort leaves in the
fresh zero struct: absent fields, `null` and mismatched values leave
zero, array elements decode element-wise, and everything else
decodes.  The functions below model that value.  A body that is not
syntactically valid JSON is outside this model (it populates a
stream-position-dependent prefix before `Decode` aborts); bodies are
well-formed JSON values here, on which the best effort is exact. -/

/-- Best-effort unmarshalling into a `string` value. -/
def bestString : Json → String
  | Json.str s => s
  | _ => ""

/-- Best-effort decoding of a struct field: absent leaves the zero
value. -/
def bestField {α : Type} (bd : Json → α) (zero : α) : Option Json → α
  | none => zero
  | some j => bd j

/-- Best-effort unmarshalling into a slice: `null` and mismatches give
the nil slice, array elements decode element-wise (a mismatched
element keeps its slot with its own best-effort value). -/
def bestList {α : Type} (bd : Json → α) : Json → List α
  | Json.arr xs => xs.map bd
  | _ => []

/-- Best-effort decoding of the inner name object of a chain node. -/
def bestSpeciesName : Json → SpeciesName
  | Json.obj fs => ⟨bestField bestString "" (jLookup fs "name")⟩
  | _ => ⟨""⟩

/-- Best-effort decoding of a second-stage evolution. -/
def bestChainLevel2 : Json → ChainLevel2
  | Json.obj fs => ⟨bestField bestSpeciesName ⟨""⟩ (jLookup fs "species")⟩
  | _ => ⟨⟨""⟩⟩

/-- Best-effort decoding of a first-stage evolution. -/
def bestChainLevel1 : Json → ChainLevel1
  | Json.obj fs =>
    ⟨bestField bestSpeciesName ⟨""⟩ (jLookup fs "species"),
     bestField (bestList bestChainLevel2) [] (jLookup fs "evolves_to")⟩
  | _ => ⟨⟨""⟩, []⟩

/-- Best-effort decoding of the root chain node. -/
def bestChainNode : Json → ChainNode
  | Json.obj fs =>
    ⟨bestField bestSpeciesName ⟨""⟩ (jLookup fs "species"),
     bestField (bestList bestChainLevel1) [] (jLookup fs "evolves_to")⟩
  | _ => ⟨⟨""⟩, []⟩

/-- Best-effort decoding of the evolution-chain payload: the value
main.go line 204 leaves in the `chain` variable whether or not the
ignored `Decode` error occurred. -/
def bestChainResp : Json → ChainResp
  | Json.obj fs => ⟨bestField bestChainNode ⟨⟨""⟩, []⟩ (jLookup fs "chain")⟩
  | _ => ⟨⟨⟨""⟩, []⟩⟩

/-- Best-effort decoding of the `evolution_chain` reference of the
species payload. -/
def bestEvolutionChainRef : Json → EvolutionChainRef
  | Json.obj fs => ⟨bestField bestString "" (jLookup fs "url")⟩
  | _ => ⟨""⟩

/-- Best-effort decoding of the species payload. -/
def bestSpeciesResp : Json → SpeciesResp
  | Json.obj fs =>
    ⟨bestField bestEvolutionChainRef ⟨""⟩ (jLookup fs "evolution_chain")⟩
  | _ => ⟨⟨""⟩⟩

/-! ## The network abstraction and the fetchers (main.go lines
137-214) -/

/-- The environment of outbound HTTP: each URL either fails (network
error, `none`) or yields a response body, represented as a JSON
value.  For the checked decode of `fetchPokemon` a body that is not
syntactically valid JSON has the same effect as a JSON value of the
wrong shape - the decode errors out and the error is propagated.  For
the ignored decodes of `fetchEvolutions` the bodies modelled are the
well-formed JSON values, on which `encoding/json`'s documented
best-effort population of the struct is captured exactly by the
`best*` functions above. -/
def World : Type := String → Option Json

/-- `http.Get`: an empty URL string has no scheme and always fails in
Go; any other URL behaves as the environment dictates. -/
def httpGet (w : World) (url : String) : Option Json :=
  if url = "" then none else w url

/-- The flattening loop of `fetchEvolutions` (main.go lines 206-213):
start from the base species name, and for each first-stage evolution
append its name and then the names of its second-stage evolutions. -/
def flattenChain (c : ChainNode) : List String :=
  c.evolves_to.foldl
    (fun evols e =>
      e.evolves_to.foldl (fun acc f => acc ++ [f.species.name]) (evols ++ [e.species.name]))
    [c.species.name]

/-- `fetchEvolutions` (main.go lines 167-214): fetch the species
resource, decode it ignoring the error (line 179), fetch the
evolution chain at the decoded URL, decode it ignoring the error
(line 204) - the variable then holds the best-effort value
`bestChainResp` - and flatten.  A network failure at either step
returns the nil slice.  For the species decode the ignored-error
value is written `(decodeSpeciesResp body).getD zero`, which is
provably the same as best-effort decoding (`speciesResp_getD_best`)
because the payload's only leaf is the URL string, so any mismatch on
the path to it leaves the zero empty string. -/
def fetchEvolutions (w : World) (speciesURL : String) : List String :=
  match httpGet w speciesURL with
  | none => []
  | some body =>
    let sp := (decodeSpeciesResp body).getD ⟨⟨""⟩⟩
    match httpGet w sp.evolution_chain.url with
    | none => []
    | some body2 => flattenChain (bestChainResp body2).chain

/-- Go map assignment `m[k] = v` on an association list that never
holds a key twice: replace the first binding of `k`, or append a new
one. -/
def mapSet (m : List (String × Int)) (k : String) (v : Int) : List (String × Int) :=
  match m with
  | [] => [(k, v)]
  | (k2, v2) :: rest => if k2 = k then (k, v) :: rest else (k2, v2) :: mapSet rest k v

/-- The stats loop of `fetchPokemon` (main.go lines 154-157). -/
def buildStats (l : List StatEntry) : List (String × Int) :=
  l.foldl (fun m s => mapSet m s.stat.name s.base_stat) []

/-- The types loop of `fetchPokemon` (main.go lines 158-160). -/
def typesList (l : List TypeEntry) : List String :=
  l.foldl (fun acc t => acc ++ [t.type.name]) []

/-- The assembled record, main.go lines 129-135. -/
structure pokemonData where
  name : String
  types : List String
  stats : List (String × Int)
  sprite : String
  evolutions : List String
deriving DecidableEq

/-- The detail-resource URL of main.go line 141. -/
def pokemonURL (id : Nat) : String := "https://pokeapi.co/api/v2/pokemon/" ++ toString id

/-- `fetchPokemon` (main.go lines 137-165): fetch and decode the
detail resource - either failure aborts with an error - then assemble
the record, with the evolutions obtained best-effort. -/
def fetchPokemon (w : World) (id : Nat) : Except Unit pokemonData :=
  match httpGet w (pokemonURL id) with
  | none => Except.error ()
  | some body =>
    match decodePokeResp body with
    | none => Except.error ()
    | some poke =>
      Except.ok
        { name := poke.name
          types := typesList poke.types
          stats := buildStats poke.stats
          sprite := poke.sprites.other.official.front
          evolutions := fetchEvolutions w poke.species.url }

/-- Step (1) of the fetch sequence on its own: the decoded detail
payload, `none` when the network call or the decode fails. -/
def detailResponse (w : World) (id : Nat) : Option PokeAPIResponse :=
  (httpGet w (pokemonURL id)).bind decodePokeResp

/-! ## The request handler (main.go lines 52-95) -/

/-- The rendered page, represented by the template parameters of
main.go lines 20-29. -/
structure indexTemplateParams where
  Name : String
  Version : String
  PokemonID : Nat
  PokemonName : String
  Types : List String
  Stats : List (String × Int)
  Evolutions : List String
  PokemonSprite : String
deriving DecidableEq

/-- `env` (main.go lines 32-37): an environment value or a default;
`os.Getenv` returns the empty string for an unset variable, so the
process environment is a total function to strings. -/
def env (getenv : String → String) (name d : String) : String :=
  if getenv name ≠ "" then getenv name else d

/-- The handler `index` (main.go lines 52-95): resolve the `name`
query parameter (the raw value is empty both when the parameter is
absent and when it is supplied empty), default it to `cafard`, hash
with modulus 151, fetch, and render.  An error from `fetchPokemon` is
the 500 branch of line 75; template parsing and execution are modelled
from the spec as succeeding (the template is a fixed embedded asset
not present in the sources). -/
def index (getenv : String → String) (w : World) (query : Option String) :
    Except Unit indexTemplateParams :=
  let raw := query.getD ""
  let name := if raw = "" then "cafard" else raw
  let pid := pokemonIDRaw name 151
  match fetchPokemon w pid with
  | Except.error e => Except.error e
  | Except.ok poke =>
    Except.ok
      { Name := name
        Version := env getenv "VERSION" "cafard-edition"
        PokemonID := pid
        PokemonName := poke.name
        Types := poke.types
        Stats := poke.stats
        Evolutions := poke.evolutions
        PokemonSprite := poke.sprite }

/-! ## Spec-side auxiliary definitions -/

/-- Concatenation of a list of name lists. -/
def concatAll : List (List String) → List String
  | [] => []
  | x :: xs => x ++ concatAll xs

/-- Modelled from the spec (section 4.2): pre-order traversal of the
depth-3 chain - the base name first, then each first-stage evolution's
name followed immediately by its second-stage evolutions' names, in
input order. -/
def preorderNames (c : ChainNode) : List String :=
  c.species.name ::
    concatAll (c.evolves_to.map fun e =>
      e.species.name :: e.evolves_to.map fun f => f.species.name)

/-! ## Concrete environments used in the closed statements below -/

/-- The zero value of `PokeAPIResponse`. -/
def zeroPoke : PokeAPIResponse := ⟨"", [], [], ⟨⟨⟨""⟩⟩⟩, ⟨""⟩⟩

/-- A world whose species resource decodes fine but whose evolution
chain body is not of the expected shape. -/
def w4 : World := fun url =>
  if url = "https://pokeapi.co/api/v2/pokemon-species/10" then
    some (Json.obj [("evolution_chain",
      Json.obj [("url", Json.str "https://pokeapi.co/api/v2/evolution-chain/10")])])
  else if url = "https://pokeapi.co/api/v2/evolution-chain/10" then
    some (Json.str "oops")
  else none

/-- A world whose species resource body is not of the expected shape. -/
def w4b : World := fun url =>
  if url = "https://pokeapi.co/api/v2/pokemon-species/20" then some (Json.num 3)
  else none

/-- A species body linking to evolution chain 30. -/
def speciesBody30 : Json :=
  Json.obj [("evolution_chain",
    Json.obj [("url", Json.str "https://pokeapi.co/api/v2/evolution-chain/30")])]

/-- A chain body whose base species name decodes but whose
`evolves_to` value has the wrong type, so `Decode` reports an error
after having already populated the name - the partially-decodable
malformed body of the eevee example. -/
def chainBody30 : Json :=
  Json.obj [("chain",
    Json.obj [("species", Json.obj [("name", Json.str "eevee")]),
      ("evolves_to", Json.num 5)])]

/-- A world whose chain resource body is malformed yet partially
decodable. -/
def w4c : World := fun url =>
  if url = "https://pokeapi.co/api/v2/pokemon-species/30" then some speciesBody30
  else if url = "https://pokeapi.co/api/v2/evolution-chain/30" then some chainBody30
  else none

/-- A detail body naming a species link whose fetch will fail. -/
def pokeBody5 : Json :=
  Json.obj [("name", Json.str "pika"),
    ("species", Json.obj [("url", Json.str "https://pokeapi.co/api/v2/pokemon-species/25")])]

/-- A world serving only the detail resource of Pokemon 25. -/
def w5 : World := fun url => if url = pokemonURL 25 then some pokeBody5 else none

/-- A world serving an empty-object detail body for the ID that the
name `x` hashes to. -/
def w5c : World := fun url =>
  if url = pokemonURL (pokemonIDRaw "x" 151) then some (Json.obj []) else none

/-- A world serving an empty JSON object at every URL. -/
def w8 : World := fun _ => some (Json.obj [])

/-- A world serving an empty-object detail body for the ID that the
default name `cafard` hashes to. -/
def w10 : World := fun url =>
  if url = pokemonURL (pokemonIDRaw "cafard" 151) then some (Json.obj []) else none

/-! ## Lemmas about the name hasher -/

theorem lor_mul_pow_eq_add (k : Nat) :
    ∀ a b : Nat, b < 2 ^ k → a * 2 ^ k ||| b = a * 2 ^ k + b := by
  induction k with
  | zero =>
    intro a b hb
    have hb0 : b = 0 := by simpa using hb
    subst hb0
    simp
  | succ k ih =>
    intro a b hb
    have hd : b / 2 < 2 ^ k := by
      rw [pow_succ] at hb
      omega
    have h1 : a * 2 ^ (k + 1) = Nat.bit false (a * 2 ^ k) := by
      rw [Nat.bit_val, pow_succ]
      simp
      ring
    calc a * 2 ^ (k + 1) ||| b
        = Nat.bit false (a * 2 ^ k) ||| Nat.bit (Nat.bodd b) (Nat.div2 b) := by
          rw [h1, Nat.bit_decomp b]
      _ = Nat.bit (Nat.bodd b) (a * 2 ^ k ||| Nat.div2 b) := by
          rw [Nat.lor_bit, Bool.false_or]
      _ = Nat.bit (Nat.bodd b) (a * 2 ^ k + Nat.div2 b) := by
          rw [Nat.div2_val, ih a (b / 2) hd]
      _ = a * 2 ^ (k + 1) + b := by
          have hb2 := Nat.bodd_add_div2 b
          rw [Nat.div2_val] at hb2
          rw [Nat.bit_val, Nat.div2_val, pow_succ, ← Nat.mul_assoc]
          omega

theorem beStep (A x k : Nat) (hx : x < 256) :
    A * 2 ^ (k + 8) ||| x * 2 ^ k = (A * 256 + x) * 2 ^ k := by
  have h1 : x * 2 ^ k < 256 * 2 ^ k := Nat.mul_lt_mul_of_pos_right hx (Nat.two_pow_pos k)
  have h2 : 256 * 2 ^ k = 2 ^ (k + 8) := by
    rw [pow_add]
    norm_num [Nat.mul_comm]
  have hb : x * 2 ^ k < 2 ^ (k + 8) := by omega
  rw [lor_mul_pow_eq_add (k + 8) A (x * 2 ^ k) hb, pow_add]
  ring

theorem bigEndianUint64_horner (l : List Nat) (hlen : 8 ≤ l.length)
    (hb : ∀ x ∈ l, x < 256) :
    bigEndianUint64 l = (l.take 8).foldl (fun acc b => acc * 256 + b) 0 := by
  rcases l with _ | ⟨b0, l⟩
  · simp only [List.length_nil] at hlen; omega
  rcases l with _ | ⟨b1, l⟩
  · simp only [List.length_cons, List.length_nil] at hlen; omega
  rcases l with _ | ⟨b2, l⟩
  · simp only [List.length_cons, List.length_nil] at hlen; omega
  rcases l with _ | ⟨b3, l⟩
  · simp only [List.length_cons, List.length_nil] at hlen; omega
  rcases l with _ | ⟨b4, l⟩
  · simp only [List.length_cons, List.length_nil] at hlen; omega
  rcases l with _ | ⟨b5, l⟩
  · simp only [List.length_cons, List.length_nil] at hlen; omega
  rcases l with _ | ⟨b6, l⟩
  · simp only [List.length_cons, List.length_nil] at hlen; omega
  rcases l with _ | ⟨b7, l⟩
  · simp only [List.length_cons, List.length_nil] at hlen; omega
  have h1 : b1 < 256 := hb b1 (by simp)
  have h2 : b2 < 256 := hb b2 (by simp)
  have h3 : b3 < 256 := hb b3 (by simp)
  have h4 : b4 < 256 := hb b4 (by simp)
  have h5 : b5 < 256 := hb b5 (by simp)
  have h6 : b6 < 256 := hb b6 (by simp)
  have h7 : b7 < 256 := hb b7 (by simp)
  show b0 <<< 56 ||| b1 <<< 48 ||| b2 <<< 40 ||| b3 <<< 32 ||| b4 <<< 24 |||
      b5 <<< 16 ||| b6 <<< 8 ||| b7 =
    ((((((((0 * 256 + b0) * 256 + b1) * 256 + b2) * 256 + b3) * 256 + b4) * 256
      + b5) * 256 + b6) * 256 + b7)
  simp only [Nat.shiftLeft_eq]
  rw [show (56 : ℕ) = 48 + 8 from rfl, beStep b0 b1 48 h1,
      show (48 : ℕ) = 40 + 8 from rfl, beStep _ b2 40 h2,
      show (40 : ℕ) = 32 + 8 from rfl, beStep _ b3 32 h3,
      show (32 : ℕ) = 24 + 8 from rfl, beStep _ b4 24 h4,
      show (24 : ℕ) = 16 + 8 from rfl, beStep _ b5 16 h5,
      show (16 : ℕ) = 8 + 8 from rfl, beStep _ b6 8 h6,
      lor_mul_pow_eq_add 8 _ b7 (by simpa using h7)]
  norm_num

theorem beBytes_length (k : Nat) : ∀ x, (beBytes k x).length = k := by
  induction k with
  | zero => intro x; rfl
  | succ k ih => intro x; simp [beBytes, ih]

theorem beBytes_lt (k : Nat) : ∀ x, ∀ y ∈ beBytes k x, y < 256 := by
  induction k with
  | zero => intro x y hy; simp [beBytes] at hy
  | succ k ih =>
    intro x y hy
    simp only [beBytes, List.mem_append, List.mem_singleton] at hy
    rcases hy with hy | hy
    · exact ih _ y hy
    · subst hy
      exact Nat.mod_lt _ (by norm_num)

theorem sha1Sum_length (msg : List Nat) : (sha1Sum msg).length = 20 := by
  simp [sha1Sum, beBytes_length]

theorem sha1Sum_lt (msg : List Nat) : ∀ y ∈ sha1Sum msg, y < 256 := by
  intro y hy
  have h : ∀ (a b c d e : Nat),
      y ∈ beBytes 4 a ++ beBytes 4 b ++ beBytes 4 c ++ beBytes 4 d ++ beBytes 4 e →
      y < 256 := by
    intro a b c d e hmem
    simp only [List.mem_append] at hmem
    rcases hmem with (((hm | hm) | hm) | hm) | hm <;> exact beBytes_lt 4 _ y hm
  exact h _ _ _ _ _ hy

set_option maxRecDepth 40000 in
/-- C1: for every name, `pokemonID name 151` is the big-endian 64-bit
integer formed from the first 8 bytes of the SHA-1 digest of the UTF-8
bytes of the name, reduced mod 151, plus 1, exactly as the spec words
the algorithm; the digest is genuine SHA-1, pinned by the FIPS 180
test vectors for `abc` and for the empty input. -/
theorem pokemonID_matches_spec :
    (∀ name : String, pokemonID name 151 = some (specHasherID name 151)) ∧
    sha1Sum (utf8Bytes "abc") =
      [169, 153, 62, 54, 71, 6, 129, 106, 186, 62, 37, 113, 120, 80, 194, 108,
       156, 208, 216, 157] ∧
    sha1Sum (utf8Bytes "") =
      [218, 57, 163, 238, 94, 107, 75, 13, 50, 85, 191, 239, 149, 96, 24, 144,
       175, 216, 7, 9] := by
  refine ⟨fun name => ?_, by decide, by decide⟩
  have h := bigEndianUint64_horner (sha1Sum (utf8Bytes name))
    (by rw [sha1Sum_length]; omega) (sha1Sum_lt _)
  simp [pokemonID, pokemonIDRaw, specHasherID, h]

/-- C2: for every string, `pokemonID` at modulus 151 yields a value in
[1, 151]; calls with equal strings return equal values; and the empty
string is accepted without error. -/
theorem pokemonID_range_deterministic :
    (∀ s : String, ∃ v, pokemonID s 151 = some v ∧ 1 ≤ v ∧ v ≤ 151) ∧
    (∀ s t : String, s = t → pokemonID s 151 = pokemonID t 151) ∧
    pokemonID "" 151 ≠ none := by
  refine ⟨fun s => ⟨pokemonIDRaw s 151, ?_, ?_, ?_⟩,
    fun s t h => by rw [h], by simp [pokemonID]⟩
  · simp [pokemonID]
  · simp only [pokemonIDRaw]
    omega
  · have h : bigEndianUint64 (sha1Sum (utf8Bytes s)) % 151 < 151 :=
      Nat.mod_lt _ (by norm_num)
    simp only [pokemonIDRaw]
    omega

set_option maxRecDepth 40000 in
/-- Witness for C2 at concrete inputs. -/
theorem pokemonID_range_deterministic_witness :
    (∃ v, pokemonID "pikachu" 151 = some v ∧ 1 ≤ v ∧ v ≤ 151) ∧
    pokemonID "cafard" 151 = pokemonID "cafard" 151 ∧
    pokemonID "" 151 = some 122 :=
  ⟨pokemonID_range_deterministic.1 "pikachu",
   pokemonID_range_deterministic.2.1 "cafard" "cafard" rfl,
   by decide⟩

/-- C10: the hasher is total for every name and every modulus at least
1, always landing in [1, m]; modulus 0 hits Go's division-by-zero
panic, modelled as `none`; and the handler, the only caller, passes
modulus 151. -/
theorem pokemonID_total_and_mod_zero :
    (∀ (s : String) (m : Nat), 1 ≤ m → ∃ v, pokemonID s m = some v ∧ 1 ≤ v ∧ v ≤ m) ∧
    (∀ s : String, pokemonID s 0 = none) ∧
    (∀ (g : String → String) (w : World) (q : Option String) (p : indexTemplateParams),
      index g w q = Except.ok p → some p.PokemonID = pokemonID p.Name 151) := by
  refine ⟨fun s m hm => ⟨pokemonIDRaw s m, ?_, ?_, ?_⟩,
    fun s => by simp [pokemonID], ?_⟩
  · simp [pokemonID]
    omega
  · simp only [pokemonIDRaw]
    omega
  · have h : bigEndianUint64 (sha1Sum (utf8Bytes s)) % m < m := Nat.mod_lt _ (by omega)
    simp only [pokemonIDRaw]
    omega
  · intro g w q p hp
    simp only [index] at hp
    split at hp
    · exact absurd hp (by simp)
    · simp only [Except.ok.injEq] at hp
      subst hp
      simp [pokemonID]

set_option maxRecDepth 400000 in
/-- Witness for C10 at concrete inputs. -/
theorem pokemonID_total_and_mod_zero_witness :
    (∃ v, pokemonID "cafard" 7 = some v ∧ 1 ≤ v ∧ v ≤ 7) ∧
    pokemonID "cafard" 0 = none ∧
    some (97 : Nat) = pokemonID "cafard" 151 :=
  ⟨pokemonID_total_and_mod_zero.1 "cafard" 7 (by norm_num),
   pokemonID_total_and_mod_zero.2.1 "cafard",
   pokemonID_total_and_mod_zero.2.2 (fun _ => "") w10 none
     ⟨"cafard", "cafard-edition", 97, "", [], [], [], ""⟩ rfl⟩

/-- C6: a request with the name parameter absent and a request with it
supplied empty behave exactly like a request with name `cafard`: the
whole handler outcome is identical. -/
theorem index_default_name :
    ∀ (g : String → String) (w : World),
      index g w none = index g w (some "cafard") ∧
      index g w (some "") = index g w (some "cafard") := by
  intro g w
  constructor <;> rfl

/-- C7 counterexample: on the input `été`, whose first character takes
two UTF-8 bytes, the helper does not uppercase the first character: it
replaces the first byte by U+FFFD (bytes 239 191 189) and keeps the
orphaned continuation byte 169, yielding neither `Été` nor the
ASCII-case-mapping no-op `été`. -/
theorem title_counterexample :
    title (utf8Bytes "été") = 239 :: 191 :: 189 :: 169 :: utf8Bytes "té" ∧
    title (utf8Bytes "été") ≠ utf8Bytes "Été" ∧
    title (utf8Bytes "été") ≠ utf8Bytes (upcaseFirstChar "été") := by
  refine ⟨by decide, by decide, by decide⟩

/-- C7 amended: the helper returns the empty string unchanged; when
the first byte of `s` is ASCII it returns `s` with that first
character uppercased (a-z mapped to A-Z, other ASCII unchanged); when
the first byte is 128 or more - the start of a multi-byte character -
that byte alone is replaced by U+FFFD and the remaining bytes are kept
as they are. -/
theorem title_first_byte :
    title [] = [] ∧
    (∀ (b : Nat) (rest : List Nat), b < 128 → title (b :: rest) = asciiUpper b :: rest) ∧
    (∀ (b : Nat) (rest : List Nat), 128 ≤ b →
      title (b :: rest) = 239 :: 191 :: 189 :: rest) := by
  refine ⟨rfl, ?_, ?_⟩
  · intro b rest h
    simp [title, upperFirstByte, h]
  · intro b rest h
    simp [title, upperFirstByte, Nat.not_lt.mpr h]

/-- Witness for the amended C7 at concrete inputs. -/
theorem title_first_byte_witness :
    title [99, 97, 102] = asciiUpper 99 :: [97, 102] ∧
    title [195, 169] = 239 :: 191 :: 189 :: [169] :=
  ⟨title_first_byte.2.1 99 [97, 102] (by norm_num),
   title_first_byte.2.2 195 [169] (by norm_num)⟩

/-! ## Lemmas about the flattener -/

theorem foldl_names_inner (xs : List ChainLevel2) (acc : List String) :
    xs.foldl (fun a f => a ++ [f.species.name]) acc
      = acc ++ xs.map (fun f => f.species.name) := by
  induction xs generalizing acc with
  | nil => simp
  | cons x xs ih => simp [ih]

theorem foldl_names_outer (es : List ChainLevel1) (acc : List String) :
    es.foldl
      (fun evols e =>
        e.evolves_to.foldl (fun a f => a ++ [f.species.name]) (evols ++ [e.species.name]))
      acc
      = acc ++ concatAll (es.map fun e =>
          e.species.name :: e.evolves_to.map fun f => f.species.name) := by
  have hstep : (fun (evols : List String) (e : ChainLevel1) =>
      e.evolves_to.foldl (fun a f => a ++ [f.species.name]) (evols ++ [e.species.name]))
      = fun evols e =>
          evols ++ (e.species.name :: e.evolves_to.map fun f => f.species.name) := by
    funext evols e
    rw [foldl_names_inner]
    simp
  rw [hstep]
  induction es generalizing acc with
  | nil => simp [concatAll]
  | cons e es ih =>
    rw [List.foldl_cons, ih]
    simp [concatAll, List.append_assoc]

/-- C3: the flattener emits the base species name first, then, in
input order, each first-stage evolution's name followed immediately by
the names of all its second-stage evolutions (pre-order, depth capped
at 3); on the two-branch chain base to A and B with A to A1 it yields
[base, A, A1, B], and on a chain with no evolutions just [base]. -/
theorem flattenChain_preorder :
    (∀ c : ChainNode, flattenChain c = preorderNames c) ∧
    (∀ base a a1 b : String,
      flattenChain ⟨⟨base⟩, [⟨⟨a⟩, [⟨⟨a1⟩⟩]⟩, ⟨⟨b⟩, []⟩]⟩ = [base, a, a1, b]) ∧
    (∀ base : String, flattenChain ⟨⟨base⟩, []⟩ = [base]) := by
  have key : ∀ c : ChainNode, flattenChain c = preorderNames c := by
    intro c
    simp [flattenChain, preorderNames, foldl_names_outer]
  refine ⟨key, fun base a a1 b => ?_, fun base => ?_⟩
  · rw [key]
    simp [preorderNames, concatAll]
  · rw [key]
    simp [preorderNames, concatAll]

/-! ## Lemmas about the stats map -/

theorem mapSet_lookup_self (m : List (String × Int)) (k : String) (v : Int) :
    (mapSet m k v).lookup k = some v := by
  induction m with
  | nil => simp [mapSet, List.lookup]
  | cons p m ih =>
    obtain ⟨k2, v2⟩ := p
    by_cases h : k2 = k
    · subst h
      simp [mapSet, List.lookup]
    · have h2 : (k == k2) = false := beq_eq_false_iff_ne.mpr fun hh => h hh.symm
      simp [mapSet, h, List.lookup, h2, ih]

theorem mapSet_lookup_other (m : List (String × Int)) (k k2 : String) (v : Int)
    (h : k2 ≠ k) : (mapSet m k v).lookup k2 = m.lookup k2 := by
  have hb : (k2 == k) = false := beq_eq_false_iff_ne.mpr h
  induction m with
  | nil => simp [mapSet, List.lookup, hb]
  | cons p m ih =>
    obtain ⟨k3, v3⟩ := p
    by_cases h3 : k3 = k
    · subst h3
      simp [mapSet, List.lookup, hb]
    · cases hbk : k2 == k3 <;> simp [mapSet, h3, List.lookup, hbk, ih]

theorem mem_keys_mapSet (m : List (String × Int)) (k : String) (v : Int) (x : String) :
    x ∈ (mapSet m k v).map Prod.fst ↔ x ∈ m.map Prod.fst ∨ x = k := by
  induction m with
  | nil => simp [mapSet]
  | cons p m ih =>
    obtain ⟨k2, v2⟩ := p
    by_cases h : k2 = k
    · subst h
      simp [mapSet]
      tauto
    · simp [mapSet, h, ih]
      tauto

theorem nodup_keys_mapSet (m : List (String × Int)) (k : String) (v : Int)
    (h : (m.map Prod.fst).Nodup) : ((mapSet m k v).map Prod.fst).Nodup := by
  induction m with
  | nil => simp [mapSet]
  | cons p m ih =>
    obtain ⟨k2, v2⟩ := p
    simp only [List.map_cons, List.nodup_cons] at h
    by_cases hk : k2 = k
    · subst hk
      simp [mapSet, List.nodup_cons, h.1, h.2]
    · have hm : mapSet ((k2, v2) :: m) k v = (k2, v2) :: mapSet m k v := by
        simp [mapSet, hk]
      rw [hm]
      simp only [List.map_cons, List.nodup_cons]
      refine ⟨fun hx => ?_, ih h.2⟩
      rcases (mem_keys_mapSet m k v k2).mp hx with hc | hc
      · exact h.1 hc
      · exact hk hc

theorem buildStats_append_single (l : List StatEntry) (s : StatEntry) :
    buildStats (l ++ [s]) = mapSet (buildStats l) s.stat.name s.base_stat := by
  simp [buildStats, List.foldl_append]

theorem buildStats_nodup (l : List StatEntry) : ((buildStats l).map Prod.fst).Nodup := by
  induction l using List.reverseRecOn with
  | nil => simp [buildStats]
  | append_singleton l s ih =>
    rw [buildStats_append_single]
    exact nodup_keys_mapSet _ _ _ ih

theorem buildStats_lookup (l : List StatEntry) (k : String) :
    (buildStats l).lookup k
      = ((l.reverse.find? fun s => s.stat.name == k).map fun s => s.base_stat) := by
  induction l using List.reverseRecOn with
  | nil => simp [buildStats, List.lookup]
  | append_singleton l s ih =>
    rw [buildStats_append_single, List.reverse_append]
    simp only [List.reverse_singleton, List.singleton_append, List.find?]
    by_cases h : s.stat.name = k
    · have hb : (s.stat.name == k) = true := beq_iff_eq.mpr h
      rw [hb]
      subst h
      simp [mapSet_lookup_self]
    · have hb : (s.stat.name == k) = false := beq_eq_false_iff_ne.mpr h
      have h2 : k ≠ s.stat.name := fun hh => h hh.symm
      rw [hb]
      simp [mapSet_lookup_other (buildStats l) s.stat.name k s.base_stat h2, ih]

/-- C9: the stats mapping of every assembled record has unique keys,
and when the upstream response lists the same stat name more than
once, the base stat of the last occurrence in input order is the one
kept. -/
theorem stats_unique_keys_last_wins :
    (∀ l : List StatEntry, ((buildStats l).map Prod.fst).Nodup) ∧
    (∀ (l : List StatEntry) (k : String),
      (buildStats l).lookup k
        = ((l.reverse.find? fun s => s.stat.name == k).map fun s => s.base_stat)) ∧
    buildStats [⟨1, ⟨"speed"⟩⟩, ⟨2, ⟨"speed"⟩⟩] = [("speed", 2)] ∧
    (∀ (w : World) (id : Nat) (r : pokemonData),
      fetchPokemon w id = Except.ok r → (r.stats.map Prod.fst).Nodup) := by
  refine ⟨buildStats_nodup, buildStats_lookup, by decide, ?_⟩
  intro w id r hr
  simp only [fetchPokemon] at hr
  split at hr
  · exact absurd hr (by simp)
  · split at hr
    · exact absurd hr (by simp)
    · simp only [Except.ok.injEq] at hr
      subst hr
      exact buildStats_nodup _

/-- Witness for C9: the assembled-record clause at a concrete world. -/
theorem stats_unique_keys_last_wins_witness :
    (((⟨"", [], [], "", []⟩ : pokemonData).stats.map Prod.fst).Nodup) :=
  stats_unique_keys_last_wins.2.2.2 w8 3 ⟨"", [], [], "", []⟩ rfl

/-! ## Lemmas about the fetchers -/

theorem pokemonURL_ne_empty (id : Nat) : pokemonURL id ≠ "" := by
  intro h
  have h2 := congrArg String.length h
  simp only [pokemonURL, String.length_append] at h2
  have h3 : ("https://pokeapi.co/api/v2/pokemon/" : String).length = 34 := by decide
  rw [h3] at h2
  have h4 : ("" : String).length = 0 := rfl
  rw [h4] at h2
  omega

/-- The flattener equals the pre-order traversal, standalone form. -/
theorem flattenChain_eq_preorder (c : ChainNode) : flattenChain c = preorderNames c := by
  simp [flattenChain, preorderNames, foldl_names_outer]

/-- The flattener output always starts with the base species name, so
it is never empty. -/
theorem flattenChain_ne_nil (c : ChainNode) : flattenChain c ≠ [] := by
  rw [flattenChain_eq_preorder]
  simp [preorderNames]

/-! Coherence of strict and best-effort decoding: whenever the strict
decode succeeds, it is exactly the value the best effort leaves, so
the ignored-error model refines the checked one. -/

theorem bestString_of_decode :
    ∀ (j : Json) (s : String), decodeStringJ j = some s → bestString j = s := by
  intro j s h
  cases j <;> simp_all [decodeStringJ, bestString]

theorem bestField_of_optField {α : Type} (d : Json → Option α) (bd : Json → α) (zero : α)
    (hcoh : ∀ j v, d j = some v → bd j = v) :
    ∀ (o : Option Json) (v : α), optField d zero o = some v → bestField bd zero o = v := by
  intro o v h
  cases o with
  | none =>
    simp only [optField, Option.some.injEq] at h
    simp [bestField, h]
  | some j =>
    simp only [optField] at h
    simp [bestField, hcoh j v h]

theorem bestElems_of_decode {α : Type} (d : Json → Option α) (bd : Json → α)
    (hcoh : ∀ j v, d j = some v → bd j = v) :
    ∀ (xs : List Json) (l : List α), decodeElems d xs = some l → xs.map bd = l := by
  intro xs
  induction xs with
  | nil =>
    intro l h
    simp_all [decodeElems]
  | cons x xs ih =>
    intro l h
    simp only [decodeElems] at h
    split at h
    · rename_i v vs hv hvs
      simp only [Option.some.injEq] at h
      subst h
      simp [hcoh x v hv, ih vs hvs]
    · exact absurd h (by simp)

theorem bestList_of_decode {α : Type} (d : Json → Option α) (bd : Json → α)
    (hcoh : ∀ j v, d j = some v → bd j = v) :
    ∀ (j : Json) (l : List α), decodeListJ d j = some l → bestList bd j = l := by
  intro j l h
  cases j with
  | null => simp_all [decodeListJ, bestList]
  | arr xs =>
    simp only [decodeListJ] at h
    simp only [bestList]
    exact bestElems_of_decode d bd hcoh xs l h
  | bool b => simp [decodeListJ] at h
  | num n => simp [decodeListJ] at h
  | str s => simp [decodeListJ] at h
  | obj fs => simp [decodeListJ] at h

theorem bestSpeciesName_of_decode :
    ∀ (j : Json) (v : SpeciesName), decodeSpeciesName j = some v → bestSpeciesName j = v := by
  intro j v h
  cases j with
  | null => simp_all [decodeSpeciesName, bestSpeciesName]
  | obj fs =>
    simp only [decodeSpeciesName, Option.map_eq_some'] at h
    obtain ⟨s, hs, hv⟩ := h
    subst hv
    simp only [bestSpeciesName, SpeciesName.mk.injEq]
    exact bestField_of_optField decodeStringJ bestString "" bestString_of_decode _ s hs
  | bool b => simp [decodeSpeciesName] at h
  | num n => simp [decodeSpeciesName] at h
  | str s => simp [decodeSpeciesName] at h
  | arr xs => simp [decodeSpeciesName] at h

theorem bestChainLevel2_of_decode :
    ∀ (j : Json) (v : ChainLevel2), decodeChainLevel2 j = some v → bestChainLevel2 j = v := by
  intro j v h
  cases j with
  | null => simp_all [decodeChainLevel2, bestChainLevel2]
  | obj fs =>
    simp only [decodeChainLevel2, Option.map_eq_some'] at h
    obtain ⟨sn, hsn, hv⟩ := h
    subst hv
    simp only [bestChainLevel2, ChainLevel2.mk.injEq]
    exact bestField_of_optField decodeSpeciesName bestSpeciesName ⟨""⟩
      bestSpeciesName_of_decode _ sn hsn
  | bool b => simp [decodeChainLevel2] at h
  | num n => simp [decodeChainLevel2] at h
  | str s => simp [decodeChainLevel2] at h
  | arr xs => simp [decodeChainLevel2] at h

theorem bestChainLevel1_of_decode :
    ∀ (j : Json) (v : ChainLevel1), decodeChainLevel1 j = some v → bestChainLevel1 j = v := by
  intro j v h
  cases j with
  | null => simp_all [decodeChainLevel1, bestChainLevel1]
  | obj fs =>
    simp only [decodeChainLevel1] at h
    split at h
    · rename_i sp ev hsp hev
      simp only [Option.some.injEq] at h
      subst h
      simp only [bestChainLevel1, ChainLevel1.mk.injEq]
      constructor
      · exact bestField_of_optField decodeSpeciesName bestSpeciesName ⟨""⟩
          bestSpeciesName_of_decode _ sp hsp
      · exact bestField_of_optField (decodeListJ decodeChainLevel2)
          (bestList bestChainLevel2) []
          (bestList_of_decode decodeChainLevel2 bestChainLevel2 bestChainLevel2_of_decode)
          _ ev hev
    · exact absurd h (by simp)
  | bool b => simp [decodeChainLevel1] at h
  | num n => simp [decodeChainLevel1] at h
  | str s => simp [decodeChainLevel1] at h
  | arr xs => simp [decodeChainLevel1] at h

theorem bestChainNode_of_decode :
    ∀ (j : Json) (v : ChainNode), decodeChainNode j = some v → bestChainNode j = v := by
  intro j v h
  cases j with
  | null => simp_all [decodeChainNode, bestChainNode]
  | obj fs =>
    simp only [decodeChainNode] at h
    split at h
    · rename_i sp ev hsp hev
      simp only [Option.some.injEq] at h
      subst h
      simp only [bestChainNode, ChainNode.mk.injEq]
      constructor
      · exact bestField_of_optField decodeSpeciesName bestSpeciesName ⟨""⟩
          bestSpeciesName_of_decode _ sp hsp
      · exact bestField_of_optField (decodeListJ decodeChainLevel1)
          (bestList bestChainLevel1) []
          (bestList_of_decode decodeChainLevel1 bestChainLevel1 bestChainLevel1_of_decode)
          _ ev hev
    · exact absurd h (by simp)
  | bool b => simp [decodeChainNode] at h
  | num n => simp [decodeChainNode] at h
  | str s => simp [decodeChainNode] at h
  | arr xs => simp [decodeChainNode] at h

theorem bestChainResp_of_decode :
    ∀ (j : Json) (v : ChainResp), decodeChainResp j = some v → bestChainResp j = v := by
  intro j v h
  cases j with
  | null => simp_all [decodeChainResp, bestChainResp]
  | obj fs =>
    simp only [decodeChainResp, Option.map_eq_some'] at h
    obtain ⟨cn, hcn, hv⟩ := h
    subst hv
    simp only [bestChainResp, ChainResp.mk.injEq]
    exact bestField_of_optField decodeChainNode bestChainNode ⟨⟨""⟩, []⟩
      bestChainNode_of_decode _ cn hcn
  | bool b => simp [decodeChainResp] at h
  | num n => simp [decodeChainResp] at h
  | str s => simp [decodeChainResp] at h
  | arr xs => simp [decodeChainResp] at h

/-- For the species payload the ignored-error value written with
`getD` in `fetchEvolutions` coincides with best-effort decoding on
every body: the only leaf is the URL string, so any mismatch on the
path to it leaves the zero empty string either way. -/
theorem evolutionChainRef_getD_best (j : Json) :
    (decodeEvolutionChainRef j).getD ⟨""⟩ = bestEvolutionChainRef j := by
  cases j with
  | null => rfl
  | obj fs =>
    simp only [decodeEvolutionChainRef, bestEvolutionChainRef]
    cases hl : jLookup fs "url" with
    | none => rfl
    | some j2 => cases j2 <;> rfl
  | bool b => rfl
  | num n => rfl
  | str s => rfl
  | arr xs => rfl

theorem speciesResp_getD_best (b : Json) :
    (decodeSpeciesResp b).getD ⟨⟨""⟩⟩ = bestSpeciesResp b := by
  cases b with
  | null => rfl
  | obj fs =>
    simp only [decodeSpeciesResp, bestSpeciesResp]
    cases hl : jLookup fs "evolution_chain" with
    | none => rfl
    | some j =>
      simp only [optField, bestField]
      have hin := evolutionChainRef_getD_best j
      cases hd : decodeEvolutionChainRef j with
      | none =>
        rw [hd] at hin
        simp [← hin]
      | some r =>
        rw [hd] at hin
        simp [← hin]
  | bool b2 => rfl
  | num n => rfl
  | str s => rfl
  | arr xs => rfl

/-- C4 counterexample: in the world `w4` the species resource is
fetched and decoded successfully and the evolution-chain resource is
fetched successfully, but its body is a top-level JSON string, on
which `Decode` reports an error having populated nothing; main.go
line 204 ignores that error and the chain struct stays at its zero
value, so `fetchEvolutions` returns the one-element sequence holding
the empty string - not the empty sequence the claim states for a
malformed chain response. -/
theorem fetchEvolutions_malformed_chain :
    decodeChainResp (Json.str "oops") = none ∧
    fetchEvolutions w4 "https://pokeapi.co/api/v2/pokemon-species/10" = [""] ∧
    fetchEvolutions w4 "https://pokeapi.co/api/v2/pokemon-species/10" ≠ [] := by
  refine ⟨rfl, by decide, by decide⟩

/-- C4 amended: `fetchEvolutions` returns the empty sequence on a
species fetch failure and on a chain fetch failure - the latter covers
a malformed species response, whose zero-valued chain URL is empty,
and an empty URL always fails.  Once the chain resource is fetched,
the decode error, if any, is ignored and the flattener runs over
whatever best-effort decoding populated, so the result is never
empty: it equals the flatten of the strictly decoded chain when the
decode succeeds, and on a malformed body it is the flatten of the
partially decoded chain - the one-element sequence holding the empty
string exactly when nothing decodes. -/
theorem fetchEvolutions_failure_policy :
    ∀ (w : World) (u : String),
      (httpGet w u = none → fetchEvolutions w u = []) ∧
      (∀ b, httpGet w u = some b → decodeSpeciesResp b = none →
        fetchEvolutions w u = []) ∧
      (∀ b, httpGet w u = some b →
        httpGet w ((decodeSpeciesResp b).getD ⟨⟨""⟩⟩).evolution_chain.url = none →
        fetchEvolutions w u = []) ∧
      (∀ b b2, httpGet w u = some b →
        httpGet w ((decodeSpeciesResp b).getD ⟨⟨""⟩⟩).evolution_chain.url = some b2 →
        fetchEvolutions w u = flattenChain (bestChainResp b2).chain ∧
        fetchEvolutions w u ≠ [] ∧
        (∀ ch, decodeChainResp b2 = some ch →
          fetchEvolutions w u = flattenChain ch.chain) ∧
        (bestChainResp b2 = ⟨⟨⟨""⟩, []⟩⟩ → fetchEvolutions w u = [""])) := by
  intro w u
  refine ⟨fun h => ?_, fun b hb hd => ?_, fun b hb hc => ?_, fun b b2 hb hc => ?_⟩
  · simp [fetchEvolutions, h]
  · have hu : ((decodeSpeciesResp b).getD ⟨⟨""⟩⟩).evolution_chain.url = "" := by
      rw [hd]
      rfl
    have hu2 : httpGet w "" = none := by simp [httpGet]
    simp [fetchEvolutions, hb, hu, hu2]
  · simp [fetchEvolutions, hb, hc]
  · have hmain : fetchEvolutions w u = flattenChain (bestChainResp b2).chain := by
      simp [fetchEvolutions, hb, hc]
    refine ⟨hmain, ?_, ?_, ?_⟩
    · rw [hmain]
      exact flattenChain_ne_nil _
    · intro ch hch
      rw [hmain, bestChainResp_of_decode b2 ch hch]
    · intro hz
      rw [hmain, hz]
      rfl

/-- Witness for the amended C4 at concrete worlds: a failing species
fetch, a malformed species body, a nothing-decodes malformed chain
body giving the empty-string singleton, and a partially-decodable
malformed chain body giving the partially decoded name. -/
theorem fetchEvolutions_failure_policy_witness :
    fetchEvolutions w4 "https://nowhere" = [] ∧
    fetchEvolutions w4b "https://pokeapi.co/api/v2/pokemon-species/20" = [] ∧
    fetchEvolutions w4 "https://pokeapi.co/api/v2/pokemon-species/10" = [""] ∧
    fetchEvolutions w4c "https://pokeapi.co/api/v2/pokemon-species/30" = ["eevee"] ∧
    fetchEvolutions w4c "https://pokeapi.co/api/v2/pokemon-species/30" ≠ [] ∧
    decodeChainResp chainBody30 = none :=
  ⟨(fetchEvolutions_failure_policy w4 "https://nowhere").1 rfl,
   (fetchEvolutions_failure_policy w4b "https://pokeapi.co/api/v2/pokemon-species/20").2.1
     (Json.num 3) rfl rfl,
   ((fetchEvolutions_failure_policy w4 "https://pokeapi.co/api/v2/pokemon-species/10").2.2.2
     (Json.obj [("evolution_chain",
        Json.obj [("url", Json.str "https://pokeapi.co/api/v2/evolution-chain/10")])])
     (Json.str "oops") rfl rfl).2.2.2 rfl,
   ((fetchEvolutions_failure_policy w4c "https://pokeapi.co/api/v2/pokemon-species/30").2.2.2
     speciesBody30 chainBody30 rfl rfl).1,
   ((fetchEvolutions_failure_policy w4c "https://pokeapi.co/api/v2/pokemon-species/30").2.2.2
     speciesBody30 chainBody30 rfl rfl).2.1,
   rfl⟩

/-- C5: `fetchPokemon` returns an error exactly when the detail fetch
or its decode fails; when the detail step succeeds the record
assembled from it is returned even if the species or evolution-chain
fetch fails, in which case evolutions is left empty; and the handler
answers 200 (an ok rendering) whenever the fetch is ok. -/
theorem fetchPokemon_error_policy :
    ∀ (w : World) (id : Nat),
      (fetchPokemon w id = Except.error () ↔ detailResponse w id = none) ∧
      (∀ poke, detailResponse w id = some poke →
        fetchPokemon w id = Except.ok
          ⟨poke.name, typesList poke.types, buildStats poke.stats,
           poke.sprites.other.official.front, fetchEvolutions w poke.species.url⟩) ∧
      (∀ poke, detailResponse w id = some poke →
        (httpGet w poke.species.url = none ∨
          (∃ b, httpGet w poke.species.url = some b ∧
            httpGet w ((decodeSpeciesResp b).getD ⟨⟨""⟩⟩).evolution_chain.url = none)) →
        fetchPokemon w id = Except.ok
          ⟨poke.name, typesList poke.types, buildStats poke.stats,
           poke.sprites.other.official.front, []⟩) ∧
      (∀ (g : String → String) (q : Option String) (r : pokemonData),
        fetchPokemon w
            (pokemonIDRaw (if q.getD "" = "" then "cafard" else q.getD "") 151)
          = Except.ok r →
        ∃ p, index g w q = Except.ok p) := by
  intro w id
  have hstep2 : ∀ poke, detailResponse w id = some poke →
      fetchPokemon w id = Except.ok
        ⟨poke.name, typesList poke.types, buildStats poke.stats,
         poke.sprites.other.official.front, fetchEvolutions w poke.species.url⟩ := by
    intro poke hp
    cases hg : httpGet w (pokemonURL id) with
    | none =>
      simp only [detailResponse, hg, Option.none_bind] at hp
      exact absurd hp (by simp)
    | some body =>
      simp only [detailResponse, hg, Option.some_bind] at hp
      simp [fetchPokemon, hg, hp]
  have hev : ∀ surl : String,
      (httpGet w surl = none ∨
        (∃ b, httpGet w surl = some b ∧
          httpGet w ((decodeSpeciesResp b).getD ⟨⟨""⟩⟩).evolution_chain.url = none)) →
      fetchEvolutions w surl = [] := by
    intro surl hf
    rcases hf with hf | ⟨b, hb, hc⟩
    · simp [fetchEvolutions, hf]
    · simp [fetchEvolutions, hb, hc]
  refine ⟨?_, hstep2, fun poke hp hfail => ?_, fun g q r hr => ?_⟩
  · cases hg : httpGet w (pokemonURL id) with
    | none => simp [fetchPokemon, detailResponse, hg]
    | some body =>
      cases hd : decodePokeResp body with
      | none => simp [fetchPokemon, detailResponse, hg, hd]
      | some poke => simp [fetchPokemon, detailResponse, hg, hd]
  · rw [hstep2 poke hp, hev poke.species.url hfail]
  · simp only [index]
    rw [hr]
    exact ⟨_, rfl⟩

set_option maxRecDepth 400000 in
/-- Witness for C5 at concrete worlds: the species fetch fails, the
record from step (1) is returned with empty evolutions, and the
handler still renders a page. -/
theorem fetchPokemon_error_policy_witness :
    fetchPokemon w5 25 = Except.ok ⟨"pika", [], [], "",
      fetchEvolutions w5 "https://pokeapi.co/api/v2/pokemon-species/25"⟩ ∧
    fetchPokemon w5 25 = Except.ok ⟨"pika", [], [], "", []⟩ ∧
    (∃ p, index (fun _ => "") w5c (some "x") = Except.ok p) :=
  ⟨(fetchPokemon_error_policy w5 25).2.1
     ⟨"pika", [], [], ⟨⟨⟨""⟩⟩⟩, ⟨"https://pokeapi.co/api/v2/pokemon-species/25"⟩⟩ rfl,
   (fetchPokemon_error_policy w5 25).2.2.1
     ⟨"pika", [], [], ⟨⟨⟨""⟩⟩⟩, ⟨"https://pokeapi.co/api/v2/pokemon-species/25"⟩⟩ rfl
     (Or.inl rfl),
   (fetchPokemon_error_policy w5c 0).2.2.2 (fun _ => "") (some "x")
     ⟨"", [], [], "", []⟩ rfl⟩

/-- C8: absent fields decode to zero values without failure: the
all-fields-absent object decodes successfully in all three payload
shapes; whichever expected top-level detail field is absent comes out
as its zero value; an empty species URL (the zero value) yields the
empty evolutions list; and fetching with an empty-object detail body
still produces a record. -/
theorem decode_missing_fields_zero :
    decodePokeResp (Json.obj []) = some zeroPoke ∧
    decodeSpeciesResp (Json.obj []) = some ⟨⟨""⟩⟩ ∧
    decodeChainResp (Json.obj []) = some ⟨⟨⟨""⟩, []⟩⟩ ∧
    (∀ fs r, decodePokeResp (Json.obj fs) = some r →
      (jLookup fs "name" = none → r.name = "") ∧
      (jLookup fs "types" = none → r.types = []) ∧
      (jLookup fs "stats" = none → r.stats = []) ∧
      (jLookup fs "sprites" = none → r.sprites = ⟨⟨⟨""⟩⟩⟩) ∧
      (jLookup fs "species" = none → r.species = ⟨""⟩)) ∧
    (∀ w : World, fetchEvolutions w "" = []) ∧
    (∀ (w : World) (id : Nat), w (pokemonURL id) = some (Json.obj []) →
      fetchPokemon w id = Except.ok ⟨"", [], [], "", []⟩) := by
  refine ⟨rfl, rfl, rfl, ?_, ?_, ?_⟩
  · intro fs r hr
    simp only [decodePokeResp] at hr
    split at hr
    · rename_i nm tys sts spr spc h1 h2 h3 h4 h5
      simp only [Option.some.injEq] at hr
      subst hr
      refine ⟨fun ha => ?_, fun ha => ?_, fun ha => ?_, fun ha => ?_, fun ha => ?_⟩
      · rw [ha] at h1
        simp only [optField, Option.some.injEq] at h1
        subst h1
        rfl
      · rw [ha] at h2
        simp only [optField, Option.some.injEq] at h2
        subst h2
        rfl
      · rw [ha] at h3
        simp only [optField, Option.some.injEq] at h3
        subst h3
        rfl
      · rw [ha] at h4
        simp only [optField, Option.some.injEq] at h4
        subst h4
        rfl
      · rw [ha] at h5
        simp only [optField, Option.some.injEq] at h5
        subst h5
        rfl
    · exact absurd hr (by simp)
  · intro w
    simp [fetchEvolutions, httpGet]
  · intro w id hw
    have h1 : httpGet w (pokemonURL id) = some (Json.obj []) := by
      rw [httpGet, if_neg (pokemonURL_ne_empty id), hw]
    have h2 : decodePokeResp (Json.obj []) = some zeroPoke := rfl
    have h3 : fetchEvolutions w "" = [] := by simp [fetchEvolutions, httpGet]
    simp [fetchPokemon, h1, h2, zeroPoke, typesList, buildStats, h3]

/-- Witness for C8 at concrete inputs. -/
theorem decode_missing_fields_zero_witness :
    fetchPokemon w8 3 = Except.ok ⟨"", [], [], "", []⟩ ∧
    zeroPoke.name = "" :=
  ⟨decode_missing_fields_zero.2.2.2.2.2 w8 3 rfl,
   (decode_missing_fields_zero.2.2.2.1 [] zeroPoke rfl).1 rfl⟩

end Quelpoke
